import Mathlib

/-! Shallow embedding of the SRC calibration code of this repository
(`src/src_roughness_optimization.py` and `src/identify_src_bankfull.py`)
together with proofs about it.  Pandas dataframes are modelled as lists of
records; nullable (NaN) cells are `Option` values; real arithmetic is `Rat`.
The two fractional powers `pow(x, 2.0/3)` and `pow(x, 0.5)` appearing in
Manning's equation are irrational-valued, so they are abstracted as function
parameters `p23 s12 : Rat → Rat`; every property proved below holds for all
choices of these two functions (their pointwise values never influence the
control flow reasoned about).  Comparisons against a NaN cell are `false`,
as in pandas. -/

unseal Rat.mul Rat.inv Rat.add Rat.sub Rat.ofScientific

namespace SRC

/-- pandas-style comparison `x <= c` where a missing (NaN) value compares False. -/
def oleRat : Option Rat → Rat → Bool
  | some v, c => v ≤ c
  | none, _ => false

/-- pandas-style comparison `x > y` between two nullable cells: any NaN operand
yields False (`branch_network` compares `nextorder > order` this way). -/
def ogtRat : Option Rat → Option Rat → Bool
  | some a, some b => a > b
  | _, _ => false

/-- arithmetic mean of a list of rationals, `none` on the empty list
(pandas `mean` of an all-NaN group is NaN). -/
def meanQ (l : List Rat) : Option Rat :=
  if l.isEmpty then none else some (l.sum / l.length)

/-- median as pandas computes it: sort ascending, take the middle element for
an odd count, the average of the two middle elements for an even count;
`none` on the empty list. -/
def medianQ (l : List Rat) : Option Rat :=
  let s := l.insertionSort (· ≤ ·)
  let n := s.length
  if n = 0 then none
  else if n % 2 = 1 then s[n / 2]?
  else match s[n / 2 - 1]?, s[n / 2]? with
    | some a, some b => some ((a + b) / 2)
    | _, _ => none

/-- Modelled from the spec: `ROUGHNESS_MIN_THRESH` is imported by
`src_roughness_optimization.py` from `utils/shared_variables.py`, which is not
part of the sources here; the module's own comments state the allowable range
as `>0.6 or <0.001`, so the minimum threshold is 0.001. -/
def ROUGHNESS_MIN_THRESH : Rat := 1 / 1000

/-- Modelled from the spec: `ROUGHNESS_MAX_THRESH` is imported from
`utils/shared_variables.py` (not among the sources); per the module's comments
the maximum threshold is 0.6. -/
def ROUGHNESS_MAX_THRESH : Rat := 3 / 5

/-- Manning's-equation roughness of one observation
(`df_nvalues['hydroid_ManningN'] = WetArea_m2 * HydraulicRadius_m**(2/3) *
SLOPE**0.5 / flow`, line 124): NaN if any hydraulic input is NaN.
`p23` and `s12` stand for the fractional powers `(·)**(2/3)` and `(·)**0.5`. -/
def manningsFormula (p23 s12 : Rat → Rat) (wet hrad slope : Option Rat)
    (flow : Rat) : Option Rat :=
  match wet, hrad, slope with
  | some w, some h, some s => some (w * p23 h * s12 s / flow)
  | _, _, _ => none

/-- Mann_flag (line 129): an observation passes exactly when its computed
roughness is non-null, strictly below the max threshold and strictly above the
min threshold (`np.where(n >= MAX | n <= MIN | n.isnull(), 'Fail', 'Pass')`). -/
def mannPass (n : Option Rat) : Bool :=
  match n with
  | none => false
  | some v => !(v ≥ ROUGHNESS_MAX_THRESH || v ≤ ROUGHNESS_MIN_THRESH)

/-- the `np.select` of lines 218-220: feature value where the hydroid value is
null and the feature value is not, group value where both hydroid and feature
values are null and the group value is not, hydroid value otherwise. -/
def adjust_ManningN (hy fe gr : Option Rat) : Option Rat :=
  if hy = none ∧ fe ≠ none then fe
  else if hy = none ∧ fe = none ∧ gr ≠ none then gr
  else hy

/-- recomputed discharge (lines 264-266):
`WetArea * HydraulicRadius**(2/3) * SLOPE**0.5 / ManningN`, NaN-propagating. -/
def dischargeFormula (p23 s12 : Rat → Rat) (wet hrad slope mann : Option Rat) :
    Option Rat :=
  match wet, hrad, slope, mann with
  | some w, some h, some s, some m => some (w * p23 h * s12 s / m)
  | _, _, _, _ => none

/-- the two sentinel masks of lines 269-270: where the default discharge is
exactly 0 the output discharge is 0, where it is exactly -999 the output is
-999, otherwise the recomputed value stands. -/
def sentinelMaskedDischarge (defaultD computed : Option Rat) : Option Rat :=
  let d1 := if defaultD == some 0 then some 0 else computed
  if defaultD == some (-999) then some (-999) else d1

/-! The network builder `branch_network` (lines 291-323).  Its input is the
one-row-per-HydroID frame `df_nmerge[['HydroID','feature_id','NextDownID',
'LENGTHKM','LakeID','order_']]`, modelled as a list of `BRow`.  The Python
loop mutates a visited set and two deques; here the inner downstream walk is
`walkBranch` and the outer loop over branch heads is `processHeads`, both
structurally recursive on an explicit fuel argument so that they evaluate by
kernel reduction.  `branch_network` supplies fuel that is provably sufficient
(the fuel-stability theorem for claim C7 shows larger fuel never changes the
result), so the fuel is an encoding device, not a semantic bound.  The Python
function creates the `route_count`/`branch_id` columns only by the first
assignment inside the walk loop (lines 307-308); when the head deque starts
empty that assignment never runs and `sort_values(['branch_id','route_count'])`
at line 322 raises `KeyError`, which `branch_network` models as `none`. -/

/-- one row of the deduplicated hydrotable handed to `branch_network`. -/
structure BRow where
  hydroID : Int
  featureID : Int
  nextDownID : Int
  lengthKM : Rat
  lakeID : Int
  streamOrder : Option Rat
deriving DecidableEq, Repr

/-- one `(route_count, branch_id)` assignment made by the walk. -/
structure Assign where
  hydroID : Int
  branchID : Nat
  routeCount : Nat
deriving DecidableEq, Repr

/-- `df_input_htable.loc[q]` on the HydroID-indexed frame: the first row with
the given HydroID. -/
def lookupRow (rows : List BRow) (h : Int) : Option BRow :=
  rows.find? (fun r => r.hydroID == h)

/-- `(df_input_htable.NextDownID == nextid).sum()`: how many rows reference
`n` as their NextDownID. -/
def confluenceCount (rows : List BRow) (n : Int) : Nat :=
  (rows.filter (fun r => r.nextDownID == n)).length

/-- the inner downstream walk of lines 304-320: starting at `q`, repeatedly
assign `(branch, vert)` and move to NextDownID; stop at a missing or
already-visited successor, and stop-and-enqueue at an order-increasing
confluence.  Returns (assignments in walk order, new visited list, enqueued
new branch heads). -/
def walkBranch (rows : List BRow) :
    Nat → List Int → Int → Nat → Nat → List Assign × List Int × List Int
  | 0, visited, _, _, _ => ([], visited, [])
  | fuel + 1, visited, q, vert, branch =>
    match lookupRow rows q with
    | none => ([], visited, [])
    | some r =>
      if q ∈ visited then ([], visited, [])
      else
        let visited' := q :: visited
        let nextid := r.nextDownID
        match lookupRow rows nextid with
        | none => ([⟨q, branch, vert⟩], visited', [])
        | some nr =>
          if nextid ∈ visited' then ([⟨q, branch, vert⟩], visited', [])
          else if ogtRat nr.streamOrder r.streamOrder &&
              decide (confluenceCount rows nextid > 1) then
            ([⟨q, branch, vert⟩], visited', [nextid])
          else
            let res := walkBranch rows fuel visited' nextid (vert + 1) branch
            (⟨q, branch, vert⟩ :: res.1, res.2.1, res.2.2)

/-- the outer `while branch_heads` loop of lines 300-320: pop the leftmost
head, bump the branch counter, walk, append any newly found head to the right
end of the deque.  Returns (all assignments, final visited list). -/
def processHeads (rows : List BRow) :
    Nat → List Int → List Int → Nat → List Assign × List Int
  | 0, _, visited, _ => ([], visited)
  | fuel + 1, heads, visited, bc =>
    match heads with
    | [] => ([], visited)
    | h :: rest =>
      let res := walkBranch rows (rows.length + 1) visited h 0 (bc + 1)
      let rec2 := processHeads rows fuel (rest ++ res.2.2) res.2.1 (bc + 1)
      (res.1 ++ rec2.1, rec2.2)

/-- line 294/297: branch heads are the HydroIDs (of the lake-filtered table)
that appear in nobody's NextDownID column, in table order. -/
def branchHeads (rows : List BRow) : List Int :=
  (rows.filter (fun r => !(rows.any (fun r2 => r2.nextDownID == r.hydroID)))).map
    (fun r => r.hydroID)

/-- a `BRow` with the two columns `branch_network` adds; both stay NaN on a
row the walk never reaches. -/
structure BNRow extends BRow where
  branchID : Option Nat
  routeCount : Option Nat
deriving DecidableEq, Repr

/-- sort key comparison for `sort_values(['branch_id','route_count'])`:
ascending, NaN last (as pandas places NaN keys). -/
def oNatLe : Option Nat → Option Nat → Bool
  | _, none => true
  | none, some _ => false
  | some a, some b => a ≤ b

/-- strict part of `oNatLe`. -/
def oNatLt : Option Nat → Option Nat → Bool
  | some a, some b => a < b
  | some _, none => true
  | none, _ => false

/-- lexicographic (branch_id, route_count) order used to sort the output. -/
def bnLeB (a b : BNRow) : Bool :=
  oNatLt a.branchID b.branchID ||
    (a.branchID == b.branchID && oNatLe a.routeCount b.routeCount)

/-- `bnLeB` as a decidable relation for `List.insertionSort`. -/
def bnLe (a b : BNRow) : Prop := bnLeB a b = true

instance : DecidableRel bnLe := fun a b => by unfold bnLe; infer_instance

/-- fuel that provably suffices for `processHeads` (one unit per pop, and a
pop either consumes a head for good or visits at least one new row). -/
def stdFuelFor (rows : List BRow) : Nat :=
  rows.length + (branchHeads rows).length + 1

/-- `branch_network` with the fuel of the two loops exposed. -/
def branchNetworkAux (rowsIn : List BRow) (fuel : Nat) : List BNRow :=
  let nl := rowsIn.filter (fun r => r.lakeID == -999)
  let assigns := (processHeads nl fuel (branchHeads nl) [] 0).1
  let out : List BNRow := nl.map (fun r =>
    { r with
      branchID := (assigns.find? (fun a => a.hydroID == r.hydroID)).map
        (fun a => a.branchID)
      routeCount := (assigns.find? (fun a => a.hydroID == r.hydroID)).map
        (fun a => a.routeCount) })
  List.insertionSort bnLe out

/-- `branch_network` (lines 291-323): drop lake rows, seed the head deque with
start catchments, traverse, attach `branch_id`/`route_count`, and sort by
them.  When no non-lake row is a start catchment (a pure cycle, an all-lake
table, an empty table) the head deque starts empty, the loop body of lines
301-320 never executes, the `route_count`/`branch_id` columns are never
created, and the `sort_values` call of line 322 raises `KeyError`; that raise
is modelled as `none`.  Otherwise the very first popped head is an unvisited
table row, lines 307-308 create the columns, and the function returns the
sorted frame. -/
def branch_network (rowsIn : List BRow) : Option (List BNRow) :=
  let nl := rowsIn.filter (fun r => r.lakeID == -999)
  if (branchHeads nl).isEmpty then none
  else some (branchNetworkAux rowsIn (stdFuelFor nl))

/-! The group roughness propagator `group_manningn_calc` (lines 325-375):
a strictly sequential fold over the branch-ordered rows.  Only the columns the
fold reads are kept in `GRow`; its output is the `group_ManningN` column (the
intermediate `accum_dist`/`hyid_count`/`hyid_accum_count` columns are dropped
by the Python code itself at line 373).  The assignment `run_avg_mann = 0` on
line 358 writes a variable that is never read, so it has no counterpart
here. -/

/-- the columns of `df_nmerge` read by `group_manningn_calc`.  The Python code
applies `int(...)` to `branch_id`, which raises on NaN, so callers must ensure
a non-null branch id (the orchestrator model returns no output in that case). -/
structure GRow where
  branchID : Int
  lengthKM : Rat
  hydroidN : Option Rat
deriving DecidableEq, Repr

/-- the loop-carried state of `group_manningn_calc` (line 328-330). -/
structure GState where
  distAccum : Rat
  hyidCount : Nat
  hyidAccumCount : Nat
  runAccumMann : Rat
  groupN : Rat
  branchStart : Int
deriving DecidableEq, Repr

/-- initial counters (lines 328-329): everything 0, `branch_start = 1`. -/
def gInit : GState := ⟨0, 0, 0, 0, 0, 1⟩

/-- lines 332-335: on entering a new branch reset every accumulator and record
the new branch id. -/
def branchReset (s : GState) (r : GRow) : GState :=
  if r.branchID ≠ s.branchStart then ⟨0, 0, 0, 0, 0, r.branchID⟩ else s

/-- one iteration of the row loop (lines 332-369): returns the updated state
and the `group_ManningN` cell emitted for this row (`none` = left unset). -/
def gStep (thresh : Rat) (s0 : GState) (r : GRow) : GState × Option Rat :=
  let s := branchReset s0 r
  match r.hydroidN with
  | none =>
    let newDist := s.distAccum + r.lengthKM
    let out := if newDist < thresh ∧ s.hyidAccumCount > 1 then some s.groupN
      else none
    ({ s with distAccum := newDist, hyidCount := 0 }, out)
  | some v =>
    let hc := s.hyidCount + 1
    let ram := if hc = 1 then 0 else s.runAccumMann
    let hac := if hc = 1 then 0 else s.hyidAccumCount
    let g := (v + ram) / (hc : Rat)
    (⟨0, hc, hac + 1, ram + v, g, s.branchStart⟩, some g)

/-- run the fold from a given state, collecting the emitted cells. -/
def gRun (thresh : Rat) : GState → List GRow → List (Option Rat)
  | _, [] => []
  | s, r :: rest =>
    let p := gStep thresh s r
    p.2 :: gRun thresh p.1 rest

/-- the state after folding over a list of rows. -/
def gStateAfter (thresh : Rat) (s : GState) (rows : List GRow) : GState :=
  rows.foldl (fun s r => (gStep thresh s r).1) s

/-- `group_manningn_calc`: the `group_ManningN` column produced for the
branch-ordered rows. -/
def group_manningn_calc (thresh : Rat) (rows : List GRow) : List (Option Rat) :=
  gRun thresh gInit rows

/-! The orchestrator `update_rating_curve` (lines 18-289), restricted to its
default `merge_prev_adj=False` behaviour (with that flag the previously
persisted `adjust_ManningN` values are dropped on line 92 before anything is
computed).  File I/O, logging and the catchments-polygon side output are out
of scope; the function below is the transformation from (observation points,
hydro table read from csv) to the hydro table written back, returning `none`
when the Python function writes no table (its three early-exit warnings, and
the `int(NaN)` ValueError that `group_manningn_calc` raises when an unvisited
row reaches it). -/

/-- one row of `water_edge_median_df`: the observation points.  The `layer`
column only feeds logging/debug output and the dropped `ahps_lid` column, and
`flow_unit` is never read, so neither is modelled. -/
structure ObsRow where
  hydroid : Option Int
  flow : Rat
  hand : Rat
  submitter : String
  collTime : Rat
deriving DecidableEq, Repr

/-- a hydro-table row after lines 92-93: the previous calibration columns are
dropped and the defaults renamed onto the working `discharge_cms`/`ManningN`
names, so only these columns remain relevant. -/
structure PRow where
  hydroID : Int
  featureID : Int
  nextDownID : Int
  lengthKM : Rat
  lakeID : Int
  streamOrder : Option Rat
  stage : Rat
  wetArea : Option Rat
  hydRadius : Option Rat
  slope : Option Rat
  dischargeCms : Option Rat
  manningN : Option Rat
deriving DecidableEq, Repr

/-- a full hydro-table row as read from/written to `hydroTable_*.csv`. -/
structure HRow where
  hydroID : Int
  featureID : Int
  nextDownID : Int
  lengthKM : Rat
  lakeID : Int
  streamOrder : Option Rat
  stage : Rat
  wetArea : Option Rat
  hydRadius : Option Rat
  slope : Option Rat
  dischargeCms : Option Rat
  manningN : Option Rat
  defaultDischarge : Option Rat
  defaultManningN : Option Rat
  adjustManningN : Option Rat
  adjustSrcOn : Bool
  obsSource : Option String
  submitter : Option String
  lastUpdated : Option Rat
deriving DecidableEq, Repr

/-- the hydro table: `defaultsPresent` records whether the csv already has the
`default_discharge_cms` column (line 71's check). -/
structure HTable where
  defaultsPresent : Bool
  rows : List HRow
deriving DecidableEq, Repr

/-- lines 71-81: the default columns must be (re)snapshotted from the current
values when they are absent or any default discharge cell is null. -/
def needSnap (t : HTable) : Bool :=
  !t.defaultsPresent || t.rows.any (fun r => r.defaultDischarge == none)

/-- lines 79-93 restricted to one row: the working discharge/roughness are the
snapshotted current values, or the existing defaults when no snapshot is
taken. -/
def prepRow (snap : Bool) (r : HRow) : PRow :=
  { hydroID := r.hydroID, featureID := r.featureID, nextDownID := r.nextDownID,
    lengthKM := r.lengthKM, lakeID := r.lakeID, streamOrder := r.streamOrder,
    stage := r.stage, wetArea := r.wetArea, hydRadius := r.hydRadius,
    slope := r.slope,
    dischargeCms := if snap then r.dischargeCms else r.defaultDischarge,
    manningN := if snap then r.manningN else r.defaultManningN }

/-- the hydro table as the pipeline uses it after lines 69-93. -/
def prep (t : HTable) : List PRow :=
  t.rows.map (prepRow (needSnap t))

/-- `idxmin` of `|stage - hand|` (line 106): the first row attaining the
minimum absolute difference, among the rows of one HydroID. -/
def argminStage (hand : Rat) : List PRow → Option PRow
  | [] => none
  | p :: ps => some (ps.foldl
      (fun best x => if |x.stage - hand| < |best.stage - hand| then x else best) p)

/-- one row of `df_nvalues` after the copy loop (lines 96-126): the hydraulic
attributes copied from the closest-stage rating row, the mask of line 120, and
the computed `hydroid_ManningN`. -/
structure NRec where
  hydroID : Int
  flow : Rat
  submitter : String
  collTime : Rat
  srcStage : Option Rat
  slope : Option Rat
  hrad : Option Rat
  wet : Option Rat
  discharge : Option Rat
  n : Option Rat
deriving DecidableEq, Repr

/-- lines 100-126 for a single observation with valid hydroid `hid`: when the
hydroid is absent from the table nothing is copied (the row keeps NaN
everywhere, line 97-99 only logs); otherwise copy from the closest-stage row,
null out WetArea/HydraulicRadius near the SRC zero point, and apply Manning's
equation. -/
def buildNRec (p23 s12 : Rat → Rat) (P : List PRow) (hid : Int) (o : ObsRow) :
    NRec :=
  match argminStage o.hand (P.filter (fun p => p.hydroID == hid)) with
  | none => ⟨hid, o.flow, o.submitter, o.collTime, none, none, none, none, none,
      none⟩
  | some p =>
    let masked := decide (p.stage ≤ 0.1) || oleRat p.dischargeCms 0
    let hr := if masked then none else p.hydRadius
    let wet := if masked then none else p.wetArea
    ⟨hid, o.flow, o.submitter, o.collTime, some p.stage, p.slope, hr, wet,
      p.dischargeCms, manningsFormula p23 s12 wet hr p.slope o.flow⟩

/-- lines 65-126: drop observations without a positive non-null hydroid, then
process each one. -/
def nvaluesOf (p23 s12 : Rat → Rat) (P : List PRow) (obs : List ObsRow) :
    List NRec :=
  obs.filterMap (fun o =>
    match o.hydroid with
    | some hid => if hid > 0 then some (buildNRec p23 s12 P hid o) else none
    | none => none)

/-- line 154: keep only observations whose Mann_flag is Pass. -/
def passRecsOf (p23 s12 : Rat → Rat) (P : List PRow) (obs : List ObsRow) :
    List NRec :=
  (nvaluesOf p23 s12 P obs).filter (fun rec => mannPass rec.n)

/-- line 164: the median `hydroid_ManningN` over a HydroID's (passing)
observations; `none` when the HydroID has none. -/
def dfMannHydroid (recs : List NRec) (h : Int) : Option Rat :=
  medianQ ((recs.filter (fun rec => rec.hydroID == h)).filterMap (fun rec => rec.n))

/-- ordering by collection time used on line 160. -/
def collLe (a b : NRec) : Prop := a.collTime ≤ b.collTime

instance : DecidableRel collLe := fun a b => by unfold collLe; infer_instance

/-- lines 159-161: sort by collection time and keep the last entry per
HydroID, yielding that HydroID's (submitter, last_updated). -/
def updatedFor (recs : List NRec) (h : Int) : Option (String × Rat) :=
  (((recs.insertionSort collLe).filter (fun rec => rec.hydroID == h)).getLast?).map
    (fun rec => (rec.submitter, rec.collTime))

/-- the static projection of a table row taken on line 188. -/
def toBRow (p : PRow) : BRow :=
  ⟨p.hydroID, p.featureID, p.nextDownID, p.lengthKM, p.lakeID, p.streamOrder⟩

/-- `drop_duplicates(['HydroID'], keep='first')` on line 188. -/
def dedupHydroAux (seen : List Int) : List BRow → List BRow
  | [] => []
  | r :: rest =>
    if r.hydroID ∈ seen then dedupHydroAux seen rest
    else r :: dedupHydroAux (r.hydroID :: seen) rest

/-- line 188: the one-row-per-HydroID frame fed to `branch_network`. -/
def nmerge0Of (P : List PRow) : List BRow :=
  dedupHydroAux [] (P.map toBRow)

/-- a `df_nmerge` row as it accumulates columns through lines 198-221. -/
structure NMRow extends BNRow where
  hydroidN : Option Rat
  submitter : Option String
  lastUpdated : Option Rat
  groupN : Option Rat
  featidN : Option Rat
  adjustN : Option Rat
  obsSource : Option String
deriving DecidableEq, Repr

/-- lines 198-199: left-merge the per-HydroID median roughness and the most
recent submitter/collection time onto the traversal output. -/
def nmMergeOf (recs : List NRec) (bn : List BNRow) : List NMRow :=
  bn.map (fun b =>
    { toBNRow := b,
      hydroidN := dfMannHydroid recs b.hydroID,
      submitter := (updatedFor recs b.hydroID).map (fun u => u.1),
      lastUpdated := (updatedFor recs b.hydroID).map (fun u => u.2),
      groupN := none, featidN := none, adjustN := none, obsSource := none })

/-- the projection of `df_nmerge` that `group_manningn_calc` reads (the
orchestrator guards `branch_id` against NaN before this point, see
`process`). -/
def toGRow (m : NMRow) : GRow :=
  ⟨((m.branchID.getD 0 : Nat) : Int), m.lengthKM, m.hydroidN⟩

/-- line 202: write the `group_ManningN` column computed by the fold. -/
def nmGroupOf (thresh : Rat) (rows : List NMRow) : List NMRow :=
  List.zipWith (fun m o => { m with groupN := o }) rows
    (group_manningn_calc thresh (rows.map toGRow))

/-- lines 204-206: mean (NaN-skipping) of the per-HydroID medians over the
rows sharing a feature_id. -/
def dfMannFeatid (rows : List NMRow) (f : Int) : Option Rat :=
  meanQ ((rows.filter (fun m => m.featureID == f)).filterMap (fun m => m.hydroidN))

/-- lines 207-208: per feature_id, the first non-null last_updated and the
first non-null submitter, kept only for features owning a non-null
submitter. -/
def featAttrib (rows : List NMRow) (f : Int) : Option (Option Rat × String) :=
  let frows := rows.filter (fun m => m.featureID == f)
  match (frows.filterMap (fun m => m.submitter)).head? with
  | some s => some ((frows.filterMap (fun m => m.lastUpdated)).head?, s)
  | none => none

/-- lines 209-210: merge the feature mean in, and `combine_first` the feature
attributes into null submitter/last_updated cells.  (The pandas
`combine_first` also reorders rows by feature_id; row order is irrelevant to
every later step keyed on HydroID, so the model keeps the original order.) -/
def nmFeatOf (rows : List NMRow) : List NMRow :=
  rows.map (fun m =>
    let att := featAttrib rows m.featureID
    { m with
      featidN := dfMannFeatid rows m.featureID,
      submitter := match m.submitter with
        | some s => some s
        | none => att.map (fun a => a.2),
      lastUpdated := match m.lastUpdated with
        | some l => some l
        | none => att.bind (fun a => a.1) })

/-- lines 218-221: resolve the calibration tiers into `adjust_ManningN` and
stamp the observation source tag wherever a value was adjusted. -/
def nmAdjOf (tag : String) (rows : List NMRow) : List NMRow :=
  rows.map (fun m =>
    let a := adjust_ManningN m.hydroidN m.featidN m.groupN
    { m with adjustN := a, obsSource := if a.isSome then some tag else none })

/-- lines 255-270 for one output row: left-merge the per-HydroID adjustment
columns onto the stage row, choose the final roughness, recompute discharge,
and apply the sentinel masks. -/
def outRowOf (p23 s12 : Rat → Rat) (nm : List NMRow) (p : PRow) : HRow :=
  let f := nm.find? (fun m => m.hydroID == p.hydroID)
  let adj := f.bind (fun m => m.adjustN)
  let mann := match adj with | some a => some a | none => p.manningN
  let d := sentinelMaskedDischarge p.dischargeCms
    (dischargeFormula p23 s12 p.wetArea p.hydRadius p.slope mann)
  { hydroID := p.hydroID, featureID := p.featureID, nextDownID := p.nextDownID,
    lengthKM := p.lengthKM, lakeID := p.lakeID, streamOrder := p.streamOrder,
    stage := p.stage, wetArea := p.wetArea, hydRadius := p.hydRadius,
    slope := p.slope,
    dischargeCms := d, manningN := mann,
    defaultDischarge := p.dischargeCms, defaultManningN := p.manningN,
    adjustManningN := adj, adjustSrcOn := adj.isSome,
    obsSource := f.bind (fun m => m.obsSource),
    submitter := f.bind (fun m => m.submitter),
    lastUpdated := f.bind (fun m => m.lastUpdated) }

/-- the `df_nmerge` frame after lines 195-210 (traversal, merges, group fold,
feature mean and attribute fill).  This frame only exists when the traversal
returned; `process` checks `branch_network` for the `KeyError` case first, so
the `[]` default below is never the value a written table is built from. -/
def nmPreOf (p23 s12 : Rat → Rat) (thresh : Rat) (obs : List ObsRow)
    (P : List PRow) : List NMRow :=
  nmFeatOf (nmGroupOf thresh
    (nmMergeOf (passRecsOf p23 s12 P obs) ((branch_network (nmerge0Of P)).getD [])))

/-- the final `df_nmerge` frame after lines 218-221. -/
def nmFinalOf (p23 s12 : Rat → Rat) (tag : String) (thresh : Rat)
    (obs : List ObsRow) (P : List PRow) : List NMRow :=
  nmAdjOf tag (nmPreOf p23 s12 thresh obs P)

/-- the whole pipeline downstream of `prep`: `none` models "no table written"
(empty valid observations, line 282; no non-lake rows, line 279; all
`hydroid_ManningN` null, line 276; the `KeyError` raise inside
`branch_network` when the traversal has no start catchment; and the
`int(NaN)` raise in `group_manningn_calc` when an unassigned branch id
survives traversal). -/
def process (p23 s12 : Rat → Rat) (tag : String) (thresh : Rat)
    (obs : List ObsRow) (P : List PRow) : Option HTable :=
  if (passRecsOf p23 s12 P obs).isEmpty then none
  else if ((nmerge0Of P).filter (fun r => r.lakeID == -999)).isEmpty then none
  else if (branch_network (nmerge0Of P)).isNone then none
  else if ((branch_network (nmerge0Of P)).getD []).any
      (fun b => b.branchID == none) then none
  else if (nmPreOf p23 s12 thresh obs P).all (fun m => m.hydroidN == none) then none
  else some ⟨true, P.map (outRowOf p23 s12 (nmFinalOf p23 s12 tag thresh obs P))⟩

/-- `update_rating_curve` with `merge_prev_adj=False`: the table written back
(or `none` when the Python function writes none). -/
def update_rating_curve (p23 s12 : Rat → Rat) (tag : String) (thresh : Rat)
    (obs : List ObsRow) (t : HTable) : Option HTable :=
  process p23 s12 tag thresh obs (prep t)

/-! The bankfull lookup `src_bankfull_lookup` of `identify_src_bankfull.py`
(lines 35-131).  The input is the SRC table already merged with the NWM
bankfull flows (line 54): `bankfullFlowIn` is the merged, possibly missing,
`bankfull_flow` cell of a row. -/

/-- one row of `df_src` after the line 54 merge. -/
structure SRow where
  stage : Rat
  hydroID : Int
  featureID : Int
  volume : Rat
  hradius : Rat
  surfarea : Rat
  discharge : Option Rat
  bankfullFlowIn : Option Rat
deriving DecidableEq, Repr

/-- line 61: missing bankfull flows are filled with -999. -/
def bfFlow (r : SRow) : Rat := r.bankfullFlowIn.getD (-999)

/-- lines 72-78: `Q_bfull_find = |bankfull_flow - Discharge|`, null results
filled with 999999. -/
def qBfullFind (r : SRow) : Rat :=
  match r.discharge with
  | some d => |bfFlow r - d|
  | none => 999999

/-- first row minimising `f` (pandas `idxmin` keeps the first occurrence). -/
def argminQ (f : SRow → Rat) : List SRow → Option SRow
  | [] => none
  | p :: ps => some (ps.foldl (fun best x => if f x < f best then x else best) p)

/-- lines 82-86: among a HydroID's rows with positive stage, the row whose
discharge is closest to the bankfull flow; its geometry becomes the bankfull
reference for that HydroID. -/
def bankfullCalcRow (rows : List SRow) (h : Int) : Option SRow :=
  argminQ qBfullFind
    (rows.filter (fun r => decide (r.stage > 0) && (r.hydroID == h)))

/-- the ratio computation pattern of lines 91-95 (and 99-103, 107-110): start
at 1.0, replace by bankfull/current off stage 0, clip to at most 1.0 (a NaN
ratio also becomes 1.0, since NaN <= 1.0 is False), zero out where the
bankfull flow is non-positive. -/
def channRatio (stage bf : Rat) (bq : Option Rat) (v : Rat) : Rat :=
  let r0 : Option Rat := if stage == 0 then some 1 else bq.map (fun b => b / v)
  let r1 : Rat := match r0 with
    | some x => if x ≤ 1 then x else 1
    | none => 1
  if bf > 0 then r1 else 0

/-- an output row of `src_bankfull_lookup`. -/
structure SRowOut extends SRow where
  stageBankfull : Option Rat
  channVolumeRatio : Rat
  channHradiusRatio : Rat
  channSurfareaRatio : Rat
  channelFplain : String
deriving DecidableEq, Repr

/-- `src_bankfull_lookup` (lines 35-122) from the merged SRC frame to the
written frame: bankfull reference lookup per HydroID, the three channel
ratios, the bankfull-stage mask of line 114 and the channel/floodplain label
of lines 117-119. -/
def src_bankfull_lookup (rows : List SRow) : List SRowOut :=
  rows.map (fun r =>
    let bf := bfFlow r
    let bfr := bankfullCalcRow rows r.hydroID
    let stb := if bf ≤ 0 then none else bfr.map (fun c => c.stage)
    { toSRow := r,
      stageBankfull := stb,
      channVolumeRatio := channRatio r.stage bf (bfr.map (fun c => c.volume)) r.volume,
      channHradiusRatio := channRatio r.stage bf (bfr.map (fun c => c.hradius)) r.hradius,
      channSurfareaRatio := channRatio r.stage bf (bfr.map (fun c => c.surfarea)) r.surfarea,
      channelFplain := match stb with
        | some s => if r.stage ≤ s then "channel" else "floodplain"
        | none => "channel" })

/-! Concrete example data used to evaluate the development on closed inputs. -/

/-- one observation at HydroID 1 with flow 100 (roughness 0.01 under identity
powers). -/
def exObs : List ObsRow := [⟨some 1, 100, 1, "s", 1⟩]

/-- a hydro-table row for HydroID 1, unit geometry, discharge 1. -/
def rowA : HRow :=
  ⟨1, 10, -1, 1, -999, some 1, 1, some 1, some 1, some 1, some 1, some (1/20),
    none, none, none, false, none, none, none⟩

/-- a hydro-table row for HydroID 2 whose discharge cell is null. -/
def rowB : HRow :=
  ⟨2, 20, -1, 1, -999, some 1, 1, some 1, some 1, some 1, none, some (1/20),
    none, none, none, false, none, none, none⟩

/-- a fresh (never calibrated) table containing a null discharge cell. -/
def exT : HTable := ⟨false, [rowA, rowB]⟩

/-- the table the first calibration run writes for `exT`. -/
def exT1 : HTable :=
  (update_rating_curve id id "point_obs" 10 exObs exT).getD ⟨false, []⟩

/-- like `rowB` but with a non-null discharge. -/
def rowB2 : HRow :=
  ⟨2, 20, -1, 1, -999, some 1, 1, some 1, some 1, some 1, some 2, some (1/20),
    none, none, none, false, none, none, none⟩

/-- a fresh table with no null discharge cell. -/
def exT2 : HTable := ⟨false, [rowA, rowB2]⟩

/-- the table the first calibration run writes for `exT2`. -/
def exT2out : HTable :=
  (update_rating_curve id id "point_obs" 10 exObs exT2).getD ⟨false, []⟩

/-- a hydro-table row for HydroID 2 carrying the thalweg-notch sentinel
discharge 0. -/
def rowC : HRow :=
  ⟨2, 20, -1, 1, -999, some 1, 0, some 1, some 1, some 1, some 0, some (1/20),
    none, none, none, false, none, none, none⟩

/-- a fresh table whose second row has the sentinel default discharge 0. -/
def exT3 : HTable := ⟨false, [rowA, rowC]⟩

/-- the table the calibration run writes for `exT3`. -/
def exT3out : HTable :=
  (update_rating_curve id id "point_obs" 10 exObs exT3).getD ⟨false, []⟩

/-- a confluence: segments 1 and 2 (order 1) both drain to 3 (order 2). -/
def confRows : List BRow :=
  [⟨1, 0, 3, 1, -999, some 1⟩, ⟨2, 0, 3, 1, -999, some 1⟩,
    ⟨3, 0, -1, 1, -999, some 2⟩]

/-- two calibrated group rows (0.05 then 0.07 on branch 1). -/
def gPre : List GRow := [⟨1, 2, some (1/20)⟩, ⟨1, 1, some (7/100)⟩]

/-- an uncalibrated row of length 3 on branch 1. -/
def gGap : GRow := ⟨1, 3, none⟩

/-- a prepped rating row with unit geometry at stage 1. -/
def pRow1 : PRow :=
  ⟨1, 10, -1, 1, -999, some 1, 1, some 1, some 1, some 1, some 1, some (1/20)⟩

/-- an observation whose computed roughness is 0.8 (flow 5/4, unit geometry). -/
def obs8 : ObsRow := ⟨some 1, 5/4, 1, "s", 1⟩

/-- two observations at HydroID 1 computing roughness 0.03 and 0.05. -/
def obsMed : List ObsRow := [⟨some 1, 100/3, 1, "s", 1⟩, ⟨some 1, 20, 1, "u", 2⟩]

/-- SRC rows: HydroID 1 with bankfull flow 5 (stage-0 row and a stage-1 row),
HydroID 2 with a missing bankfull flow. -/
def sRows : List SRow :=
  [⟨0, 1, 10, 0, 0, 0, some 0, some 5⟩, ⟨1, 1, 10, 2, 1, 3, some 4, some 5⟩,
    ⟨1, 2, 20, 2, 1, 3, some 4, none⟩]

/-- the second output row of the bankfull run on `sRows`. -/
def sOut1 : SRowOut :=
  (src_bankfull_lookup sRows).getD 1
    ⟨⟨0, 1, 10, 0, 0, 0, none, none⟩, none, 0, 0, 0, "channel"⟩

/-- a merge-input row holding a direct hydroid value 0.03 next to feature and
group values. -/
def nm0ex : NMRow :=
  ⟨⟨⟨1, 10, -1, 1, -999, some 1⟩, some 1, some 0⟩, some (3/100), some "s",
    some 1, some (1/50), some (1/25), none, none⟩

/-- the row `nm0ex` after the tier merge. -/
def nm1ex : NMRow := (nmAdjOf "t" [nm0ex]).headD nm0ex

/-! Theorems. -/

/-- C1: monotonic priority of the calibration tiers.  Every row of the merged
frame produced by lines 218-221 carries, as `adjust_ManningN`, exactly its
direct per-segment value whenever that value is non-null — regardless of the
feature or group values — and falls back to the feature value only when the
direct value is null, and to the group value only when both are null. -/
theorem c1_monotonic_tier_priority (tag : String) (rows : List NMRow) :
    ∀ m ∈ nmAdjOf tag rows,
      (∀ v, m.hydroidN = some v → m.adjustN = some v) ∧
      (m.hydroidN = none → m.featidN ≠ none → m.adjustN = m.featidN) ∧
      (m.hydroidN = none → m.featidN = none → m.adjustN = m.groupN) := by
  intro m hm
  rcases List.mem_map.1 hm with ⟨m0, _, rfl⟩
  dsimp only
  refine ⟨?_, ?_, ?_⟩
  · intro v hv
    simp [adjust_ManningN, hv]
  · intro h1 h2
    simp [adjust_ManningN, h1, h2]
  · intro h1 h2
    by_cases hg : m0.groupN = none
    · simp [adjust_ManningN, h1, h2, hg]
    · simp [adjust_ManningN, h1, h2, hg]

/-- a concrete run of the tier merge: the direct value 0.03 of `nm0ex` wins
over its feature value 0.04 and group value 0.02. -/
theorem c1_monotonic_tier_priority_witness : nm1ex.adjustN = some (3/100) := by
  have h := c1_monotonic_tier_priority "t" [nm0ex] nm1ex (by decide)
  exact h.1 (3/100) (by decide)

/-- `gRun` over an appended list splits at the fold state. -/
theorem gRun_append (thresh : Rat) (ys : List GRow) :
    ∀ (xs : List GRow) (s : GState),
      gRun thresh s (xs ++ ys) =
        gRun thresh s xs ++ gRun thresh (gStateAfter thresh s xs) ys := by
  intro xs
  induction xs with
  | nil => intro s; rfl
  | cons x xs ih =>
    intro s
    show (gStep thresh s x).2 :: gRun thresh (gStep thresh s x).1 (xs ++ ys) =
      (gStep thresh s x).2 :: (gRun thresh (gStep thresh s x).1 xs ++
        gRun thresh (gStateAfter thresh (gStep thresh s x).1 xs) ys)
    rw [ih]

/-- `gRun` emits one cell per row. -/
theorem gRun_length (thresh : Rat) :
    ∀ (s : GState) (l : List GRow), (gRun thresh s l).length = l.length := by
  intro s l
  induction l generalizing s with
  | nil => rfl
  | cons x xs ih => simp [gRun, ih]

/-- C2: distance- and count-bounded group propagation.  In the column
`group_manningn_calc` produces, the cell of an uncalibrated row equals the
step applied to the folded state, and that step emits a value iff the
accumulated distance including this row's length is still strictly below the
threshold and at least two calibrated segments have contributed; a calibrated
row resets the accumulated distance to zero, and a branch change resets both
the accumulated distance and the contributor count. -/
theorem c2_group_emission (thresh : Rat) (pre post : List GRow) (r : GRow) :
    (group_manningn_calc thresh (pre ++ r :: post))[pre.length]? =
      some ((gStep thresh (gStateAfter thresh gInit pre) r).2) ∧
    (r.hydroidN = none →
      (((gStep thresh (gStateAfter thresh gInit pre) r).2).isSome ↔
        ((branchReset (gStateAfter thresh gInit pre) r).distAccum + r.lengthKM
            < thresh ∧
          2 ≤ (branchReset (gStateAfter thresh gInit pre) r).hyidAccumCount))) ∧
    (r.hydroidN ≠ none →
      ((gStep thresh (gStateAfter thresh gInit pre) r).1).distAccum = 0) ∧
    (r.branchID ≠ (gStateAfter thresh gInit pre).branchStart →
      (branchReset (gStateAfter thresh gInit pre) r).distAccum = 0 ∧
        (branchReset (gStateAfter thresh gInit pre) r).hyidAccumCount = 0) := by
  refine ⟨?_, ?_, ?_, ?_⟩
  · unfold group_manningn_calc
    rw [gRun_append]
    rw [List.getElem?_append_right (by rw [gRun_length])]
    rw [gRun_length]
    simp [gRun]
  · intro hn
    unfold gStep
    rw [hn]
    dsimp only
    by_cases hc :
        (branchReset (gStateAfter thresh gInit pre) r).distAccum + r.lengthKM
            < thresh ∧
          1 < (branchReset (gStateAfter thresh gInit pre) r).hyidAccumCount
    · rw [if_pos hc]
      simp only [Option.isSome_some, true_iff]
      exact ⟨hc.1, hc.2⟩
    · rw [if_neg hc]
      simp only [Option.isSome_none, Bool.false_eq_true, false_iff, not_and]
      intro h1 h2
      exact hc ⟨h1, h2⟩
  · intro hn
    unfold gStep
    cases hv : r.hydroidN with
    | none => exact absurd hv hn
    | some v => rfl
  · intro hb
    unfold branchReset
    rw [if_pos hb]
    exact ⟨rfl, rfl⟩

/-- a concrete group propagation: after calibrated segments 0.05 and 0.07 the
3 km gap row receives the running mean 0.06 (distance 3 < 10, contributors
2 ≥ 2). -/
theorem c2_group_emission_witness :
    (group_manningn_calc 10 (gPre ++ gGap :: []))[2]? = some (some (3/50)) ∧
      ((gStep 10 (gStateAfter 10 gInit gPre) gGap).2).isSome = true := by
  constructor
  · have h := (c2_group_emission 10 gPre [] gGap).1
    simp only [show gPre.length = 2 from rfl] at h
    rw [h]
    decide
  · exact ((c2_group_emission 10 gPre [] gGap).2.1 rfl).mpr (by decide)

/-- when `process` writes a table, that table is the mapped output frame. -/
theorem process_eq_some {p23 s12 : Rat → Rat} {tag : String} {thresh : Rat}
    {obs : List ObsRow} {P : List PRow} {t' : HTable}
    (h : process p23 s12 tag thresh obs P = some t') :
    t' = ⟨true, P.map (outRowOf p23 s12 (nmFinalOf p23 s12 tag thresh obs P))⟩ := by
  unfold process at h
  split_ifs at h
  all_goals first
  | exact Option.noConfusion h
  | exact (Option.some.inj h).symm

/-- a sentinel default discharge of 0 forces output discharge 0. -/
theorem sentinel_zero (X : Option Rat) :
    sentinelMaskedDischarge (some 0) X = some 0 := rfl

/-- a sentinel default discharge of -999 forces output discharge -999. -/
theorem sentinel_m999 (X : Option Rat) :
    sentinelMaskedDischarge (some (-999)) X = some (-999) := rfl

/-- off the two sentinels, the recomputed discharge stands. -/
theorem sentinel_other {D : Option Rat} (h0 : D ≠ some 0) (h9 : D ≠ some (-999))
    (X : Option Rat) : sentinelMaskedDischarge D X = X := by
  unfold sentinelMaskedDischarge
  rw [if_neg, if_neg]
  · simp only [beq_iff_eq]
    exact h0
  · simp only [beq_iff_eq]
    exact h9

/-- C6: discharge sentinel preservation.  In any table written by
`update_rating_curve`, a row whose default discharge is exactly 0 (resp.
exactly -999) has output discharge exactly 0 (resp. -999) whatever the final
roughness, and every other row's output discharge is
`WetArea * HydraulicRadius^(2/3) * slope^(1/2) / ManningN`. -/
theorem c6_discharge_sentinels (p23 s12 : Rat → Rat) (tag : String)
    (thresh : Rat) (obs : List ObsRow) (t t' : HTable)
    (h : update_rating_curve p23 s12 tag thresh obs t = some t') :
    ∀ r ∈ t'.rows,
      (r.defaultDischarge = some 0 → r.dischargeCms = some 0) ∧
      (r.defaultDischarge = some (-999) → r.dischargeCms = some (-999)) ∧
      (r.defaultDischarge ≠ some 0 → r.defaultDischarge ≠ some (-999) →
        r.dischargeCms =
          dischargeFormula p23 s12 r.wetArea r.hydRadius r.slope r.manningN) := by
  have ht := process_eq_some h
  subst ht
  intro r hr
  rcases List.mem_map.1 hr with ⟨p, _, rfl⟩
  dsimp only [outRowOf]
  refine ⟨?_, ?_, ?_⟩
  · intro h0
    rw [h0, sentinel_zero]
  · intro h9
    rw [h9, sentinel_m999]
  · intro h0 h9
    rw [sentinel_other h0 h9]

/-- a run on `exT3`: the second output row keeps the sentinel discharge 0
verbatim. -/
theorem c6_discharge_sentinels_witness :
    update_rating_curve id id "point_obs" 10 exObs exT3 = some exT3out ∧
      (exT3out.rows.getD 1 rowA).defaultDischarge = some 0 ∧
      (exT3out.rows.getD 1 rowA).dischargeCms = some 0 := by
  refine ⟨by decide, by decide, ?_⟩
  exact ((c6_discharge_sentinels id id "point_obs" 10 exObs exT3 exT3out
    (by decide)) (exT3out.rows.getD 1 rowA) (by decide)).1 (by decide)

/-- C8: roughness plausibility filtering.  Every computed observation
roughness is Manning's formula applied to the copied hydraulic attributes; an
observation is flagged Fail exactly when that value is null, at or above the
max threshold 0.6, or at or below the min threshold 0.001; and every
observation surviving the Pass filter (the only ones aggregation sees)
carries a value strictly inside (0.001, 0.6). -/
theorem c8_roughness_filtering (p23 s12 : Rat → Rat) (P : List PRow)
    (obs : List ObsRow) :
    (∀ rec ∈ nvaluesOf p23 s12 P obs,
      rec.n = manningsFormula p23 s12 rec.wet rec.hrad rec.slope rec.flow) ∧
    (∀ n : Option Rat, mannPass n = false ↔
      (n = none ∨ ∃ v, n = some v ∧
        (ROUGHNESS_MAX_THRESH ≤ v ∨ v ≤ ROUGHNESS_MIN_THRESH))) ∧
    (∀ rec ∈ passRecsOf p23 s12 P obs,
      ∃ v, rec.n = some v ∧
        ROUGHNESS_MIN_THRESH < v ∧ v < ROUGHNESS_MAX_THRESH) := by
  refine ⟨?_, ?_, ?_⟩
  · intro rec hrec
    rcases List.mem_filterMap.1 hrec with ⟨o, _, hfo⟩
    cases hh : o.hydroid with
    | none => rw [hh] at hfo; exact Option.noConfusion hfo
    | some hid =>
      rw [hh] at hfo
      dsimp only at hfo
      by_cases hpos : hid > 0
      · rw [if_pos hpos] at hfo
        have hb := Option.some.inj hfo
        subst hb
        rcases ha : argminStage o.hand (P.filter fun p => p.hydroID == hid)
          with _ | p <;> simp [buildNRec, ha, manningsFormula]
      · rw [if_neg hpos] at hfo; exact Option.noConfusion hfo
  · intro n
    cases n with
    | none => simp [mannPass]
    | some v =>
      simp only [mannPass, Bool.not_eq_false', Bool.or_eq_true, decide_eq_true_eq,
        ge_iff_le, Option.some.injEq, reduceCtorEq, false_or]
      constructor
      · intro h
        exact ⟨v, rfl, by simpa using h⟩
      · rintro ⟨w, rfl, hw⟩
        simpa using hw
  · intro rec hrec
    have hp := List.of_mem_filter hrec
    cases hn : rec.n with
    | none => rw [hn] at hp; exact Bool.noConfusion hp
    | some v =>
      rw [hn] at hp
      simp only [mannPass, Bool.not_eq_true', Bool.or_eq_false_iff,
        decide_eq_false_iff_not, ge_iff_le, not_le] at hp
      exact ⟨v, rfl, hp.2, hp.1⟩

/-- an observation computing roughness 0.8 is flagged Fail (0.6 ≤ 0.8) and the
Pass filter leaves nothing for aggregation. -/
theorem c8_roughness_filtering_witness :
    mannPass (some (4/5)) = false ∧ passRecsOf id id [pRow1] [obs8] = [] := by
  constructor
  · exact ((c8_roughness_filtering id id [pRow1] [obs8]).2.1 (some (4/5))).mpr
      (Or.inr ⟨4/5, rfl, Or.inl (by norm_num [ROUGHNESS_MAX_THRESH])⟩)
  · decide

/-- C9: aggregation of valid observations.  The per-segment roughness equals
the median over that segment's Pass-filtered observation values; each merged
row carries exactly that median for its own HydroID; and each row of the
feature-merged frame carries the mean of the non-null per-segment values over
the rows sharing its feature_id. -/
theorem c9_aggregation (p23 s12 : Rat → Rat) (P : List PRow)
    (obs : List ObsRow) (hid : Int) (recs : List NRec) (bn : List BNRow)
    (rows : List NMRow) :
    (dfMannHydroid (passRecsOf p23 s12 P obs) hid =
      medianQ ((((nvaluesOf p23 s12 P obs).filter
          (fun rec => rec.hydroID == hid)).filter
        (fun rec => mannPass rec.n)).filterMap (fun rec => rec.n))) ∧
    (∀ m ∈ nmMergeOf recs bn, m.hydroidN = dfMannHydroid recs m.hydroID) ∧
    (∀ m ∈ nmFeatOf rows, m.featidN =
      meanQ ((rows.filter (fun m2 => m2.featureID == m.featureID)).filterMap
        (fun m2 => m2.hydroidN))) := by
  refine ⟨?_, ?_, ?_⟩
  · unfold dfMannHydroid passRecsOf
    rw [List.filter_filter, List.filter_filter]
    congr 2
    apply List.filter_congr
    intro x _
    exact Bool.and_comm _ _
  · intro m hm
    rcases List.mem_map.1 hm with ⟨b, _, rfl⟩
    rfl
  · intro m hm
    rcases List.mem_map.1 hm with ⟨m0, _, rfl⟩
    rfl

/-- two observations at HydroID 1 computing 0.03 and 0.05 aggregate to the
median 0.04. -/
theorem c9_aggregation_witness :
    dfMannHydroid (passRecsOf id id [pRow1] obsMed) 1 = some (1/25) := by
  have h := (c9_aggregation id id [pRow1] obsMed 1 [] [] []).1
  rw [h]
  decide

/-- when every working discharge is non-null, a written table never triggers
the default re-snapshot of lines 79-81 on a later read. -/
theorem needSnap_out (p23 s12 : Rat → Rat) (nm : List NMRow) {P : List PRow}
    (hd : ∀ p ∈ P, p.dischargeCms ≠ none) :
    needSnap ⟨true, P.map (outRowOf p23 s12 nm)⟩ = false := by
  unfold needSnap
  simp only [Bool.not_true, Bool.false_or]
  rw [List.any_eq_false]
  intro x hx
  rcases List.mem_map.1 hx with ⟨p, hp, rfl⟩
  cases hc : p.dischargeCms with
  | none => exact absurd hc (hd p hp)
  | some v => simp [outRowOf, hc]

/-- reading back a written table (with complete defaults) reconstructs the
prepped frame the writing run used. -/
theorem prep_out (p23 s12 : Rat → Rat) (nm : List NMRow) {P : List PRow}
    (hd : ∀ p ∈ P, p.dischargeCms ≠ none) :
    prep ⟨true, P.map (outRowOf p23 s12 nm)⟩ = P := by
  unfold prep
  rw [needSnap_out p23 s12 nm hd]
  rw [List.map_map]
  have hpt : ∀ p ∈ P, (prepRow false ∘ outRowOf p23 s12 nm) p = id p :=
    fun p _ => rfl
  rw [List.map_congr_left hpt, List.map_id]

/-- C5 (counterexample): idempotence fails as stated on a table containing a
null discharge cell.  `exT` has a null discharge at HydroID 2, so the second
run's any-null check (line 79) re-snapshots the defaults from the first run's
adjusted values, and the second run's output table differs from the first
run's. -/
theorem c5_idempotence_counterexample :
    update_rating_curve id id "point_obs" 10 exObs exT = some exT1 ∧
      update_rating_curve id id "point_obs" 10 exObs exT1 ≠ some exT1 := by
  constructor
  · decide
  · decide

/-- C5 (amended): running `update_rating_curve` twice with identical
observation inputs and `merge_prev_adj=False`, where the second run reads the
table written by the first, returns the first run's table unchanged — provided
every discharge value the first run works from is non-null (so the default
snapshot is complete); the written table then never re-triggers the snapshot
of lines 79-81. -/
theorem c5_idempotence (p23 s12 : Rat → Rat) (tag : String) (thresh : Rat)
    (obs : List ObsRow) (t t1 : HTable)
    (hd : ∀ p ∈ prep t, p.dischargeCms ≠ none)
    (h1 : update_rating_curve p23 s12 tag thresh obs t = some t1) :
    update_rating_curve p23 s12 tag thresh obs t1 = some t1 ∧
      needSnap t1 = false := by
  have ht := process_eq_some h1
  constructor
  · have hp : prep t1 = prep t := by
      rw [ht]
      exact prep_out p23 s12 _ hd
    unfold update_rating_curve at h1 ⊢
    rw [hp]
    exact h1
  · rw [ht]
    exact needSnap_out p23 s12 _ hd

/-- a concrete idempotent rerun: `exT2` has no null discharge, the first run
writes `exT2out`, and the second run returns it unchanged. -/
theorem c5_idempotence_witness :
    update_rating_curve id id "point_obs" 10 exObs exT2 = some exT2out ∧
      update_rating_curve id id "point_obs" 10 exObs exT2out = some exT2out := by
  refine ⟨by decide, ?_⟩
  exact (c5_idempotence id id "point_obs" 10 exObs exT2 exT2out (by decide)
    (by decide)).1

/-- the running minimum of a fold is the seed or one of the folded elements. -/
theorem foldl_choice_mem (f : SRow → Rat) :
    ∀ (ps : List SRow) (init : SRow),
      ps.foldl (fun best x => if f x < f best then x else best) init ∈
        init :: ps := by
  intro ps
  induction ps with
  | nil => intro init; exact List.mem_singleton_self _
  | cons y ys ih =>
    intro init
    rw [List.foldl_cons]
    have h := ih (if f y < f init then y else init)
    rcases List.mem_cons.1 h with h1 | h1
    · rw [h1]
      split_ifs with hc
      · exact List.mem_cons_of_mem _ (List.mem_cons_self _ _)
      · exact List.mem_cons_self _ _
    · exact List.mem_cons_of_mem _ (List.mem_cons_of_mem _ h1)

/-- the argmin row is one of the candidate rows. -/
theorem argminQ_mem (f : SRow → Rat) {l : List SRow} {x : SRow}
    (h : argminQ f l = some x) : x ∈ l := by
  cases l with
  | nil => exact Option.noConfusion h
  | cons p ps =>
    have hx := Option.some.inj h
    rw [← hx]
    exact foldl_choice_mem f ps p

/-- the clipped ratio always lies in [0, 1] when the bankfull quantity and the
denominator are nonnegative. -/
theorem channRatio_bounds (stage bf : Rat) (bq : Option Rat) (v : Rat)
    (hbq : ∀ b, bq = some b → 0 ≤ b) (hv : 0 ≤ v) :
    0 ≤ channRatio stage bf bq v ∧ channRatio stage bf bq v ≤ 1 := by
  cases bq with
  | none =>
    unfold channRatio
    split_ifs <;> norm_num
  | some b =>
    have hb : 0 ≤ b := hbq b rfl
    have hdiv : 0 ≤ b / v := div_nonneg hb hv
    unfold channRatio
    dsimp only [Option.map]
    split_ifs with h1 h2
    · constructor <;> norm_num
    · dsimp only
      rcases le_or_lt (b / v) 1 with hc | hc
      · rw [if_pos hc]
        exact ⟨hdiv, hc⟩
      · rw [if_neg (not_le.mpr hc)]
        constructor <;> norm_num
    · constructor <;> norm_num

/-- a non-positive bankfull flow zeroes the ratio. -/
theorem channRatio_bf_nonpos (stage bf : Rat) (bq : Option Rat) (v : Rat)
    (hbf : bf ≤ 0) : channRatio stage bf bq v = 0 := by
  unfold channRatio
  rw [if_neg (not_lt.mpr hbf)]

/-- at stage 0 (with positive bankfull flow) the ratio is exactly 1. -/
theorem channRatio_stage0 (stage bf : Rat) (bq : Option Rat) (v : Rat)
    (hbf : 0 < bf) (hst : stage = 0) : channRatio stage bf bq v = 1 := by
  subst hst
  simp [channRatio, hbf]

/-- C10: bankfull ratio bounds.  Under nonnegative channel geometry every
`chann_volume_ratio`, `chann_hradius_ratio` and `chann_surfarea_ratio` written
by `src_bankfull_lookup` lies in [0, 1]; each is exactly 0 on rows whose
(possibly -999-filled) bankfull flow is non-positive, and exactly 1 on the
remaining rows wherever Stage is 0. -/
theorem c10_bankfull_ratios (rows : List SRow)
    (hnn : ∀ r ∈ rows,
      0 ≤ r.stage ∧ 0 ≤ r.volume ∧ 0 ≤ r.hradius ∧ 0 ≤ r.surfarea) :
    ∀ o ∈ src_bankfull_lookup rows,
      (0 ≤ o.channVolumeRatio ∧ o.channVolumeRatio ≤ 1) ∧
      (0 ≤ o.channHradiusRatio ∧ o.channHradiusRatio ≤ 1) ∧
      (0 ≤ o.channSurfareaRatio ∧ o.channSurfareaRatio ≤ 1) ∧
      (bfFlow o.toSRow ≤ 0 → o.channVolumeRatio = 0 ∧
        o.channHradiusRatio = 0 ∧ o.channSurfareaRatio = 0) ∧
      (0 < bfFlow o.toSRow → o.stage = 0 → o.channVolumeRatio = 1 ∧
        o.channHradiusRatio = 1 ∧ o.channSurfareaRatio = 1) := by
  intro o ho
  rcases List.mem_map.1 ho with ⟨r, hr, rfl⟩
  have hmem : ∀ c : SRow, bankfullCalcRow rows r.hydroID = some c → c ∈ rows := by
    intro c hc
    exact List.mem_of_mem_filter (argminQ_mem _ hc)
  have hvol : ∀ b, (bankfullCalcRow rows r.hydroID).map (fun c => c.volume)
      = some b → 0 ≤ b := by
    intro b hb
    rcases Option.map_eq_some'.1 hb with ⟨c, hc, rfl⟩
    exact (hnn c (hmem c hc)).2.1
  have hhr : ∀ b, (bankfullCalcRow rows r.hydroID).map (fun c => c.hradius)
      = some b → 0 ≤ b := by
    intro b hb
    rcases Option.map_eq_some'.1 hb with ⟨c, hc, rfl⟩
    exact (hnn c (hmem c hc)).2.2.1
  have hsa : ∀ b, (bankfullCalcRow rows r.hydroID).map (fun c => c.surfarea)
      = some b → 0 ≤ b := by
    intro b hb
    rcases Option.map_eq_some'.1 hb with ⟨c, hc, rfl⟩
    exact (hnn c (hmem c hc)).2.2.2
  refine ⟨?_, ?_, ?_, ?_, ?_⟩
  · exact channRatio_bounds _ _ _ _ hvol (hnn r hr).2.1
  · exact channRatio_bounds _ _ _ _ hhr (hnn r hr).2.2.1
  · exact channRatio_bounds _ _ _ _ hsa (hnn r hr).2.2.2
  · intro hbf
    exact ⟨channRatio_bf_nonpos _ _ _ _ hbf, channRatio_bf_nonpos _ _ _ _ hbf,
      channRatio_bf_nonpos _ _ _ _ hbf⟩
  · intro hbf hst
    exact ⟨channRatio_stage0 _ _ _ _ hbf hst, channRatio_stage0 _ _ _ _ hbf hst,
      channRatio_stage0 _ _ _ _ hbf hst⟩

/-- a walk that assigns nothing also enqueues nothing. -/
theorem walkBranch_nil_heads (rows : List BRow) :
    ∀ (fuel : Nat) (visited : List Int) (q : Int) (vert branch : Nat),
      (walkBranch rows fuel visited q vert branch).1 = [] →
      (walkBranch rows fuel visited q vert branch).2.2 = [] := by
  intro fuel
  cases fuel with
  | zero => intro visited q vert branch _; rfl
  | succ f =>
    intro visited q vert branch
    simp only [walkBranch]
    cases hq : lookupRow rows q with
    | none => intro _; rfl
    | some r =>
      dsimp only
      by_cases hv : q ∈ visited
      · rw [if_pos hv]
        intro _; rfl
      · rw [if_neg hv]
        cases hn : lookupRow rows r.nextDownID with
        | none => intro h; exact absurd h (by simp)
        | some nr =>
          dsimp only
          by_cases hm : r.nextDownID ∈ q :: visited
          · rw [if_pos hm]
            intro h; exact absurd h (by simp)
          · rw [if_neg hm]
            by_cases hc : (ogtRat nr.streamOrder r.streamOrder &&
                decide (confluenceCount rows r.nextDownID > 1)) = true
            · rw [if_pos hc]
              intro h; exact absurd h (by simp)
            · rw [if_neg hc]
              intro h; exact absurd h (by simp)

/-- the one-step unfolding of the walk at an unvisited segment with an
unvisited in-table successor. -/
theorem walkBranch_step (rows : List BRow) (fuel : Nat) (visited : List Int)
    (q : Int) (vert branch : Nat) (r nr : BRow)
    (hq : lookupRow rows q = some r) (hv : q ∉ visited)
    (hn : lookupRow rows r.nextDownID = some nr)
    (hnv : r.nextDownID ∉ q :: visited) :
    walkBranch rows (fuel + 1) visited q vert branch =
      if ogtRat nr.streamOrder r.streamOrder &&
          decide (confluenceCount rows r.nextDownID > 1) then
        ([⟨q, branch, vert⟩], q :: visited, [r.nextDownID])
      else
        (⟨q, branch, vert⟩ ::
            (walkBranch rows fuel (q :: visited) r.nextDownID (vert + 1)
              branch).1,
          (walkBranch rows fuel (q :: visited) r.nextDownID (vert + 1)
            branch).2) := by
  simp only [walkBranch]
  rw [hq]
  dsimp only
  rw [if_neg hv]
  rw [hn]
  dsimp only
  rw [if_neg hnv]

/-- C4: the confluence splitting rule.  At an unvisited segment `q` whose
successor exists in the table and is unvisited, the walk stops and enqueues
the successor as a new branch head exactly when the successor's stream order
is strictly greater than the current order AND the successor is referenced as
NextDownID by more than one segment; in every other case — including a null
current stream order, which makes the order comparison False — the walk
continues into the successor within the same branch. -/
theorem c4_confluence_rule (rows : List BRow) (fuel : Nat) (visited : List Int)
    (q : Int) (vert branch : Nat) (r nr : BRow)
    (hq : lookupRow rows q = some r) (hv : q ∉ visited)
    (hn : lookupRow rows r.nextDownID = some nr)
    (hnv : r.nextDownID ∉ q :: visited) :
    (walkBranch rows (fuel + 1) visited q vert branch =
        ([⟨q, branch, vert⟩], q :: visited, [r.nextDownID]) ↔
      (ogtRat nr.streamOrder r.streamOrder = true ∧
        1 < confluenceCount rows r.nextDownID)) ∧
    (¬(ogtRat nr.streamOrder r.streamOrder = true ∧
        1 < confluenceCount rows r.nextDownID) →
      walkBranch rows (fuel + 1) visited q vert branch =
        (⟨q, branch, vert⟩ ::
            (walkBranch rows fuel (q :: visited) r.nextDownID (vert + 1)
              branch).1,
          (walkBranch rows fuel (q :: visited) r.nextDownID (vert + 1)
            branch).2)) ∧
    (r.streamOrder = none →
      walkBranch rows (fuel + 1) visited q vert branch =
        (⟨q, branch, vert⟩ ::
            (walkBranch rows fuel (q :: visited) r.nextDownID (vert + 1)
              branch).1,
          (walkBranch rows fuel (q :: visited) r.nextDownID (vert + 1)
            branch).2)) := by
  have hw := walkBranch_step rows fuel visited q vert branch r nr hq hv hn hnv
  have hcont : ¬(ogtRat nr.streamOrder r.streamOrder = true ∧
      1 < confluenceCount rows r.nextDownID) →
      walkBranch rows (fuel + 1) visited q vert branch =
        (⟨q, branch, vert⟩ ::
            (walkBranch rows fuel (q :: visited) r.nextDownID (vert + 1)
              branch).1,
          (walkBranch rows fuel (q :: visited) r.nextDownID (vert + 1)
            branch).2) := by
    intro hc
    rw [hw, if_neg]
    intro hb
    rw [Bool.and_eq_true] at hb
    exact hc ⟨hb.1, of_decide_eq_true hb.2⟩
  refine ⟨⟨?_, ?_⟩, hcont, ?_⟩
  · intro heq
    by_contra hc
    rw [hcont hc] at heq
    have h1 : (walkBranch rows fuel (q :: visited) r.nextDownID (vert + 1)
        branch).1 = [] := by
      have := congrArg (fun p => p.1) heq
      simpa using this
    have h3 := congrArg (fun p => p.2.2) heq
    dsimp only at h3
    rw [walkBranch_nil_heads rows fuel _ _ _ _ h1] at h3
    simp at h3
  · intro hc
    rw [hw,
      if_pos (by rw [Bool.and_eq_true]; exact ⟨hc.1, decide_eq_true hc.2⟩)]
  · intro ho
    apply hcont
    intro hc
    rw [ho] at hc
    have : ogtRat nr.streamOrder none = false := by
      cases nr.streamOrder <;> rfl
    rw [this] at hc
    exact Bool.noConfusion hc.1

/-- a concrete confluence split: from segment 1 of `confRows`, the walk stops
and enqueues segment 3 (order 2 > 1, two upstream references). -/
theorem c4_confluence_rule_witness :
    walkBranch confRows 4 [] 1 0 1 = ([⟨1, 1, 0⟩], [1], [3]) := by
  have h := c4_confluence_rule confRows 3 [] 1 0 1 ⟨1, 0, 3, 1, -999, some 1⟩
    ⟨3, 0, -1, 1, -999, some 2⟩ (by decide) (by decide) (by decide) (by decide)
  exact h.1.mpr ⟨by decide, by decide⟩

/-- a successful lookup returns a table row bearing the looked-up id. -/
theorem lookupRow_mem {rows : List BRow} {h : Int} {r : BRow}
    (hf : lookupRow rows h = some r) : r ∈ rows ∧ r.hydroID = h := by
  unfold lookupRow at hf
  have h2 := List.find?_some hf
  simp only [beq_iff_eq] at h2
  exact ⟨List.mem_of_find?_eq_some hf, h2⟩

/-- a concrete bankfull run: the missing-bankfull row gets ratio 0, the
stage-0 row with positive flow gets ratio 1, and the stage-1 row's volume
ratio is 1 (clipped from 2/2). -/
theorem c10_bankfull_ratios_witness :
    ((src_bankfull_lookup sRows).map (fun o => o.channVolumeRatio)
        = [1, 1, 0]) ∧
      0 ≤ sOut1.channVolumeRatio ∧ sOut1.channVolumeRatio ≤ 1 := by
  refine ⟨by decide, ?_, ?_⟩
  · exact ((c10_bankfull_ratios sRows (by decide)) sOut1 (by decide)).1.1
  · exact ((c10_bankfull_ratios sRows (by decide)) sOut1 (by decide)).1.2

end SRC

